import Mathlib

/-!
Verification of the gold-tracker pipeline (src/main.go).

Shallow embedding conventions:
* `GoldPrice` mirrors the Go struct `GoldPrice` (main.go:18-24); prices are
  int64 in Go and are modelled as `Int` with explicit two's-complement
  wrapping (`wrap64`) wherever the Go code can overflow.
* Timestamps (`time.Time`) are modelled as an integer nanosecond count; the
  RFC3339 rendering used by JSON is abstracted as the decimal rendering of
  that integer (an injective rendering with a parser inverse, matching the
  round-trip behavior of Go's time marshalling).
* The goquery DOM traversal of `fetchGoldPrices` (main.go:62-87) is
  embedded at the level of table rows: a `Row` carries the number of `th`
  cells found in the row and the list of `td` cell texts, which is exactly
  the information the Go loop inspects.  A cell index past the end of the
  list yields the empty string, as `Selection.Eq(i).Text()` does.
* The JSON layer of `os.WriteFile`/`json.MarshalIndent` (main.go:262-263)
  and `loadLastPrices` (main.go:197-205) is embedded at the JSON-value
  level (`Json`), with the encoder/decoder restricted to the shape that
  `encoding/json` produces for `[]GoldPrice` under the struct tags of
  main.go:18-24.
-/

/-- Mirror of the Go struct `GoldPrice` (main.go:18-24).  `ty` is the Go
field `Type` (JSON tag `type`); `UpdatedAt` is the timestamp in integer
nanoseconds. -/
structure GoldPrice where
  ty : String
  Buy : Int
  Sell : Int
  Converted : String
  UpdatedAt : Int
deriving Repr, DecidableEq

/-- A table row as seen by the loop in `fetchGoldPrices` (main.go:62-87):
`ths` is the number of `th` cells (`s.Find("th").Length()`), `cells` the
texts of the `td` cells in order. -/
structure Row where
  ths : Nat
  cells : List String
deriving Repr, DecidableEq

/-- ASCII whitespace trimmed by Go's `strings.TrimSpace` (the Unicode
space classes beyond ASCII do not occur in the inputs considered here). -/
def isSpaceGo (c : Char) : Bool :=
  c = ' ' || c = '\t' || c = '\n' || c = '\r' || c = '\x0b' || c = '\x0c'

/-- Model of `strings.TrimSpace`. -/
def trimSpace (s : String) : String :=
  String.mk (((s.data.dropWhile isSpaceGo).reverse.dropWhile isSpaceGo).reverse)

/-- Is `c` a decimal digit (as accepted by `strconv.ParseInt` in base 10). -/
def isDigitCh (c : Char) : Bool := '0' ≤ c && c ≤ '9'

/-- Numeric value of a digit character. -/
def digitVal (c : Char) : Nat := c.toNat - 48

/-- The digit characters of the decimal core loop of `strconv.ParseInt`
(base 10): at least one digit, all in `0`-`9`, most-significant first. -/
def parseNatDigits (l : List Char) : Option Nat :=
  if l = [] then none
  else if l.all isDigitCh then some (l.foldl (fun acc c => acc * 10 + digitVal c) 0)
  else none

/-- Model of Go `strconv.ParseInt(s, 10, 64)`: optional single leading
sign, then at least one decimal digit, value required to fit in int64
(`-2^63 ≤ v ≤ 2^63 - 1`); any violation is an error (`none`). -/
def goParseInt64 (s : String) : Option Int :=
  match s.data with
  | [] => none
  | c :: rest =>
    let ds := if c = '-' ∨ c = '+' then rest else c :: rest
    match parseNatDigits ds with
    | none => none
    | some m =>
      if c = '-' then
        if (m : Int) ≤ 9223372036854775808 then some (-(m : Int)) else none
      else
        if (m : Int) ≤ 9223372036854775807 then some (m : Int) else none

/-- Mirror of `convertToInt64` (main.go:186-195): remove every comma
(`strings.ReplaceAll(valueStr, ",", "")`) then `strconv.ParseInt` base 10,
64 bits. -/
def convertToInt64 (valueStr : String) : Option Int :=
  goParseInt64 (String.mk (valueStr.data.filter (fun c => c ≠ ',')))

/-- One iteration of the row loop of `fetchGoldPrices` (main.go:62-87):
header rows (`th` present) are skipped, rows with fewer than 3 `td` cells
are skipped, a failed price conversion drops the row, otherwise a record
is appended with trimmed cell texts and capture time `now`. -/
def parseRow (now : Int) (r : Row) : Option GoldPrice :=
  if r.ths > 0 then none
  else if r.cells.length ≥ 3 then
    match convertToInt64 (trimSpace (r.cells.getD 1 "")) with
    | none => none
    | some buy =>
      match convertToInt64 (trimSpace (r.cells.getD 2 "")) with
      | none => none
      | some sell =>
        some ⟨trimSpace (r.cells.getD 0 ""), buy, sell,
              trimSpace (r.cells.getD 3 ""), now⟩
  else none

/-- The whole row loop of `fetchGoldPrices` (main.go:62-87): the records
of the rows that survive `parseRow`, in row order. -/
def parseRows (now : Int) (rows : List Row) : List GoldPrice :=
  rows.filterMap (parseRow now)

/-- Decimal digit character for `d < 10` (used to render `fmt.Sprintf("%d", _)`). -/
def digitCh : Nat → Char
  | 0 => '0' | 1 => '1' | 2 => '2' | 3 => '3' | 4 => '4'
  | 5 => '5' | 6 => '6' | 7 => '7' | 8 => '8' | _ => '9'

/-- Decimal digits of `n`, least-significant first, with explicit fuel
(`fuel ≥ n` suffices). -/
def natDecRevF : Nat → Nat → List Char
  | 0, _ => []
  | fuel + 1, n => if n = 0 then [] else digitCh (n % 10) :: natDecRevF fuel (n / 10)

/-- Decimal rendering of a natural number (the non-negative case of Go's
`fmt.Sprintf("%d", n)`). -/
def natDec (n : Nat) : String :=
  if n = 0 then "0" else String.mk (natDecRevF n n).reverse

/-- Decimal rendering of an integer, as Go's `fmt.Sprintf("%d", n)`
renders an int64 value: a leading `-` for negative values. -/
def intDec (i : Int) : String :=
  if i < 0 then "-" ++ natDec i.natAbs else natDec i.natAbs

/-- Two's-complement wrap-around of 64-bit signed arithmetic: the int64
value whose bit pattern is `x mod 2^64`. -/
def wrap64 (x : Int) : Int :=
  (x + 9223372036854775808) % 18446744073709551616 - 9223372036854775808

/-- The grouping loop of `FormatVND` (main.go:215-222), operating on the
characters of the rendered number in reverse order (the Go loop walks `s`
from its last byte to its first): after writing the `k+1`-st character a
`'.'` is written when `(k+1) % 3 = 0` and the loop is not at the first
character of `s` (`i != 0`, i.e. more characters remain). -/
def groupLoop : List Char → Nat → List Char
  | [], _ => []
  | c :: rest, k =>
    c :: (if (k + 1) % 3 = 0 ∧ rest ≠ [] then '.' :: groupLoop rest (k + 1)
          else groupLoop rest (k + 1))

/-- Mirror of `FormatVND` (main.go:207-230): multiply by 1000 in int64
arithmetic, negate if negative (again in int64 arithmetic, so the most
negative value stays negative), render in decimal, write the characters
in reverse inserting `'.'` via the counting loop, reverse the result and
append the currency glyph. -/
def FormatVND (n : Int) : String :=
  let n1 := wrap64 (n * 1000)
  let n2 := if n1 < 0 then wrap64 (n1 * (-1)) else n1
  let s := intDec n2
  String.mk ((groupLoop s.data.reverse 0).reverse) ++ " ₫"

/-- The spec's grouping rule, stated directly: working from the
least-significant digit (the input list is the rendered digits in reverse
order), emit groups of three digits separated by `'.'`, with no separator
before the leading (final) group. -/
def chunkRight : List Char → List Char
  | [] => []
  | [a] => [a]
  | [a, b] => [a, b]
  | [a, b, c] => [a, b, c]
  | a :: b :: c :: d :: rest => a :: b :: c :: '.' :: chunkRight (d :: rest)

/-- `Modelled from the spec` wording of the numeric formatting algorithm
(§4.2): the decimal rendering of `|n * 1000|` (exact integer arithmetic)
with a separator every 3 digits counting from the least-significant
digit, followed by the currency glyph. -/
def vndSpec (n : Int) : String :=
  String.mk ((chunkRight (natDec (n * 1000).natAbs).data.reverse).reverse) ++ " ₫"

/-- The fixed tracked label compared against `p.Type` in `formatMessage`
(main.go:149, 154). -/
def trackedLabel : String := "Vàng nhẫn khâu 9999"

/-- The zero value of the Go struct `GoldPrice`: the value `ringGold` and
`lastRingGold` keep in `formatMessage` (main.go:145-146) when no record
matches the tracked label. -/
def zeroGold : GoldPrice := ⟨"", 0, 0, "", 0⟩

/-- The selection loops of `formatMessage` (main.go:148-157): start from
the zero value and overwrite it with every record whose `Type` equals the
tracked label, so the last match (in snapshot order) wins. -/
def selectRing (ps : List GoldPrice) : GoldPrice :=
  ps.foldl (fun acc p => if p.ty = trackedLabel then p else acc) zeroGold

/-- The buy-direction commentary switch of `formatMessage`
(main.go:165-172), as a function of the (already wrapped) int64 delta. -/
def buyLine (d : Int) : String :=
  if d > 0 then "> Hôm nay giá mua tăng " ++ FormatVND d ++ "/chỉ so với trước đó\n"
  else if d < 0 then "> Hôm nay giá mua giảm " ++ FormatVND d ++ "/chỉ so với trước đó\n"
  else "> Hôm nay giá mua không đổi so với trước đó\n"

/-- The sell-direction commentary switch of `formatMessage`
(main.go:174-181). -/
def sellLine (d : Int) : String :=
  if d > 0 then "> Hôm nay giá bán tăng " ++ FormatVND d ++ "/chỉ so với trước đó\n"
  else if d < 0 then "> Hôm nay giá bán giảm " ++ FormatVND d ++ "/chỉ so với trước đó\n"
  else "> Hôm nay giá bán không đổi so với trước đó\n"

/-- Mirror of `formatMessage` (main.go:143-184).  The date header
`time.Now().Format(cfg.FormatTime)` is passed in as `dateStr` (the clock
and the config pattern are external inputs).  Delta subtractions are
int64 subtractions, hence wrapped.  The Go function always returns
`(&message, nil)`, so the model returns the message string. -/
def formatMessage (dateStr : String) (prices lastPrices : List GoldPrice) : String :=
  let ringGold := selectRing prices
  let lastRingGold := selectRing lastPrices
  "Giá vàng hôm nay - " ++ dateStr ++ " 💰\n" ++
  ("• " ++ ringGold.ty ++ ": Mua " ++ FormatVND ringGold.Buy ++ "/chỉ - Bán " ++
     FormatVND ringGold.Sell ++ "/chỉ\n") ++
  buyLine (wrap64 (ringGold.Buy - lastRingGold.Buy)) ++
  sellLine (wrap64 (ringGold.Sell - lastRingGold.Sell))

/-- JSON values, as far as the snapshot file format (§6) needs them. -/
inductive Json where
  | str (s : String)
  | num (n : Int)
  | arr (xs : List Json)
  | obj (fields : List (String × Json))

/-- The JSON object `encoding/json` marshals one `GoldPrice` to, per the
struct tags of main.go:18-24: `type`, `buy`, `sell`, `converted`,
`updated_at` (the timestamp rendered as a string, see the header note). -/
def encodeGoldPrice (p : GoldPrice) : Json :=
  .obj [("type", .str p.ty), ("buy", .num p.Buy), ("sell", .num p.Sell),
        ("converted", .str p.Converted), ("updated_at", .str (intDec p.UpdatedAt))]

/-- What `json.MarshalIndent(prices, ...)` (main.go:262) writes: the JSON
array of the encoded records, in order (indentation is whitespace only
and invisible at the JSON-value level). -/
def encodeSnapshot (ps : List GoldPrice) : Json :=
  .arr (ps.map encodeGoldPrice)

/-- Timestamp text parser: the inverse direction of the timestamp
rendering used by `encodeGoldPrice` (Go parses the marshalled time text
back into a `time.Time`): optional `-`, then decimal digits. -/
def parseIntText (s : String) : Option Int :=
  match s.data with
  | [] => none
  | c :: rest =>
    if c = '-' then (parseNatDigits rest).map (fun m => -(Int.ofNat m))
    else (parseNatDigits (c :: rest)).map (fun m => Int.ofNat m)

/-- `encoding/json`'s unmarshalling of one element of `[]GoldPrice`,
restricted to the object shape `encodeGoldPrice` produces. -/
def decodeGoldPrice (j : Json) : Option GoldPrice :=
  match j with
  | .obj fs =>
    match List.lookup "type" fs, List.lookup "buy" fs, List.lookup "sell" fs,
          List.lookup "converted" fs, List.lookup "updated_at" fs with
    | some (.str t), some (.num b), some (.num s), some (.str c), some (.str u) =>
      match parseIntText u with
      | some ts => some ⟨t, b, s, c, ts⟩
      | none => none
    | _, _, _, _, _ => none
  | _ => none

/-- Unmarshalling of `[]GoldPrice` from the snapshot file: a JSON array
whose elements all decode. -/
def decodeSnapshot (j : Json) : Option (List GoldPrice) :=
  match j with
  | .arr xs => xs.mapM decodeGoldPrice
  | _ => none

/-- Outcome of `loadLastPrices`: either the process is terminated by
`log.Fatalf`, or a snapshot is returned. -/
inductive ReadOutcome where
  | fatal (msg : String)
  | ok (prices : List GoldPrice)
deriving Repr, DecidableEq

/-- Mirror of `loadLastPrices` (main.go:197-205).  `file` is the content
of `latest.json` (`none` when `os.ReadFile` fails, e.g. the file is
absent on the first run): in that case the Go code calls `log.Fatalf`,
which terminates the process.  Otherwise `json.Unmarshal`'s error is
ignored and `prices` keeps its zero value (the empty slice) when
decoding fails. -/
def loadLastPrices (file : Option Json) : ReadOutcome :=
  match file with
  | none => .fatal "Không đọc được latest.json"
  | some j => .ok ((decodeSnapshot j).getD [])

/-- Log trace of one `saveToSQLite` run: which records an INSERT was
attempted for, and the messages logged for failed inserts. -/
structure SaveTrace where
  attempted : List GoldPrice
  logged : List String
deriving Repr, DecidableEq

/-- Mirror of `saveToSQLite` (main.go:90-119).  The database is external:
`openRes` and `createRes` are the outcomes of `sql.Open` and of the
CREATE TABLE exec, and `insertRes` gives the outcome of the INSERT for
each record.  An open or create failure is returned as the error; inside
the loop a failed insert is only logged (main.go:114-116) and the
function returns success (`nil`, here `.ok`) regardless. -/
def saveToSQLite (openRes createRes : Except String Unit)
    (insertRes : GoldPrice → Except String Unit)
    (prices : List GoldPrice) : Except String SaveTrace :=
  match openRes with
  | .error e => .error e
  | .ok _ =>
    match createRes with
    | .error e => .error e
    | .ok _ =>
      .ok (prices.foldl
        (fun tr p =>
          { attempted := tr.attempted ++ [p],
            logged := tr.logged ++
              (match insertRes p with
               | .error e => ["Lỗi insert: " ++ e]
               | .ok _ => []) })
        ⟨[], []⟩)

/-! ### Helper lemmas -/

theorem groupLoop_add_three (l : List Char) : ∀ k, groupLoop l (k + 3) = groupLoop l k := by
  induction l with
  | nil => intro k; rfl
  | cons c rest ih =>
    intro k
    simp only [groupLoop]
    have hmod : (k + 3 + 1) % 3 = (k + 1) % 3 := by omega
    rw [hmod]
    by_cases h : (k + 1) % 3 = 0 ∧ rest ≠ []
    · rw [if_pos h, if_pos h, ih]
    · rw [if_neg h, if_neg h, ih]

theorem groupLoop_cons (c : Char) (rest : List Char) (k : Nat) :
    groupLoop (c :: rest) k =
      c :: (if (k + 1) % 3 = 0 ∧ rest ≠ [] then '.' :: groupLoop rest (k + 1)
            else groupLoop rest (k + 1)) := rfl

theorem groupLoop_eq_chunkRight (l : List Char) : groupLoop l 0 = chunkRight l := by
  induction l using chunkRight.induct with
  | case1 => rfl
  | case2 a => rfl
  | case3 a b => rfl
  | case4 a b c => rfl
  | case5 a b c d rest ih =>
    rw [groupLoop_cons, if_neg (by simp)]
    rw [groupLoop_cons, if_neg (by simp)]
    rw [groupLoop_cons, if_pos ⟨rfl, List.cons_ne_nil _ _⟩]
    have h3 : groupLoop (d :: rest) (0 + 3) = groupLoop (d :: rest) 0 :=
      groupLoop_add_three _ 0
    rw [show (2 + 1 : Nat) = 0 + 3 from rfl, h3, ih]
    rfl

theorem wrap64_eq {x : Int} (h1 : -9223372036854775808 ≤ x)
    (h2 : x < 9223372036854775808) : wrap64 x = x := by
  unfold wrap64
  rw [Int.emod_eq_of_lt (by omega) (by omega)]
  omega

theorem digitCh_isDigit (d : Nat) : isDigitCh (digitCh d) = true := by
  unfold digitCh
  split <;> decide

theorem digitVal_digitCh {d : Nat} (h : d < 10) : digitVal (digitCh d) = d := by
  interval_cases d <;> decide

theorem natDecRevF_digits : ∀ (fuel n : Nat), ∀ c ∈ natDecRevF fuel n, isDigitCh c = true := by
  intro fuel
  induction fuel with
  | zero => intro n c hc; simp [natDecRevF] at hc
  | succ f ih =>
    intro n c hc
    simp only [natDecRevF] at hc
    by_cases hn : n = 0
    · simp [hn] at hc
    · rw [if_neg hn] at hc
      rcases List.mem_cons.mp hc with h | h
      · rw [h]; exact digitCh_isDigit _
      · exact ih _ c h

theorem natDecRevF_foldr : ∀ (fuel n : Nat), n ≤ fuel →
    (natDecRevF fuel n).foldr (fun x y => y * 10 + digitVal x) 0 = n := by
  intro fuel
  induction fuel with
  | zero => intro n h; interval_cases n; rfl
  | succ f ih =>
    intro n h
    simp only [natDecRevF]
    by_cases hn : n = 0
    · simp [hn]
    · rw [if_neg hn]
      simp only [List.foldr_cons]
      have hd : n / 10 ≤ f := by
        have : n / 10 < n := Nat.div_lt_self (by omega) (by omega)
        omega
      rw [ih (n / 10) hd, digitVal_digitCh (Nat.mod_lt n (by omega))]
      omega

theorem natDecRevF_ne_nil {n : Nat} (h : n ≠ 0) : natDecRevF n n ≠ [] := by
  match n, h with
  | m + 1, _ =>
    simp only [natDecRevF]
    rw [if_neg (by omega)]
    exact List.cons_ne_nil _ _

theorem natDec_data_digits (n : Nat) : ∀ c ∈ (natDec n).data, isDigitCh c = true := by
  intro c hc
  unfold natDec at hc
  by_cases hn : n = 0
  · rw [if_pos hn] at hc
    have h0 : ("0" : String).data = ['0'] := rfl
    rw [h0] at hc
    simp only [List.mem_singleton] at hc
    rw [hc]; decide
  · rw [if_neg hn] at hc
    have hm : (String.mk (natDecRevF n n).reverse).data = (natDecRevF n n).reverse := rfl
    rw [hm] at hc
    exact natDecRevF_digits n n c (List.mem_reverse.mp hc)

theorem isDigitCh_ne_minus {c : Char} (h : isDigitCh c = true) : c ≠ '-' := by
  intro he
  rw [he] at h
  simp [isDigitCh] at h

theorem parseNat_natDec (n : Nat) : parseNatDigits (natDec n).data = some n := by
  by_cases hn : n = 0
  · rw [hn]; decide
  · unfold natDec
    rw [if_neg hn]
    unfold parseNatDigits
    have hne : (String.mk (natDecRevF n n).reverse).data ≠ [] := by
      simp only [String.data]
      simp only [ne_eq, List.reverse_eq_nil_iff]
      exact natDecRevF_ne_nil hn
    rw [if_neg hne]
    have hall : (String.mk (natDecRevF n n).reverse).data.all isDigitCh = true := by
      simp only [String.data, List.all_eq_true]
      intro c hc
      exact natDecRevF_digits n n c (List.mem_reverse.mp hc)
    rw [if_pos hall]
    have hm : (String.mk (natDecRevF n n).reverse).data = (natDecRevF n n).reverse := rfl
    rw [hm, List.foldl_reverse, natDecRevF_foldr n n (le_refl n)]

theorem parseIntText_cons (c : Char) (rest : List Char) :
    parseIntText (String.mk (c :: rest)) =
      if c = '-' then (parseNatDigits rest).map (fun m => -(Int.ofNat m))
      else (parseNatDigits (c :: rest)).map (fun m => Int.ofNat m) := rfl

theorem parseIntText_intDec (t : Int) : parseIntText (intDec t) = some t := by
  unfold intDec
  by_cases ht : t < 0
  · rw [if_pos ht]
    have he : "-" ++ natDec t.natAbs = String.mk ('-' :: (natDec t.natAbs).data) := by
      apply String.ext
      rw [String.data_append]
      rfl
    rw [he, parseIntText_cons, if_pos rfl, parseNat_natDec]
    simp only [Option.map_some']
    congr 1
    rw [Int.ofNat_eq_natCast]
    omega
  · rw [if_neg ht]
    rcases hd : (natDec t.natAbs).data with _ | ⟨c, rest⟩
    · exfalso
      have hp := parseNat_natDec t.natAbs
      unfold parseNatDigits at hp
      rw [hd] at hp
      simp at hp
    · have hdig : isDigitCh c = true := by
        apply natDec_data_digits t.natAbs
        rw [hd]; exact List.mem_cons_self _ _
      have he : natDec t.natAbs = String.mk (c :: rest) := String.ext hd
      rw [he, parseIntText_cons, if_neg (isDigitCh_ne_minus hdig), ← hd, parseNat_natDec]
      simp only [Option.map_some']
      congr 1
      rw [Int.ofNat_eq_natCast]
      omega

theorem FormatVND_eq_vndSpec {n : Int} (h : (n * 1000).natAbs < 9223372036854775808) :
    FormatVND n = vndSpec n := by
  unfold FormatVND vndSpec
  simp only []
  have hr1 : -9223372036854775808 ≤ n * 1000 := by omega
  have hr2 : n * 1000 < 9223372036854775808 := by omega
  rw [wrap64_eq hr1 hr2]
  by_cases hneg : n * 1000 < 0
  · rw [if_pos hneg]
    have hflip : n * 1000 * (-1) = -(n * 1000) := by ring
    rw [wrap64_eq (by omega) (by omega)]
    unfold intDec
    rw [if_neg (by omega : ¬ n * 1000 * (-1) < 0)]
    rw [hflip, Int.natAbs_neg, groupLoop_eq_chunkRight]
  · rw [if_neg hneg]
    unfold intDec
    rw [if_neg hneg, groupLoop_eq_chunkRight]

theorem chunkRight_subset : ∀ (l : List Char), ∀ c ∈ chunkRight l, c ∈ l ∨ c = '.' := by
  intro l
  induction l using chunkRight.induct with
  | case1 => intro c hc; simp [chunkRight] at hc
  | case2 a => intro c hc; exact Or.inl hc
  | case3 a b => intro c hc; exact Or.inl hc
  | case4 a b c => intro x hx; exact Or.inl hx
  | case5 a b c d rest ih =>
    intro x hx
    simp only [chunkRight, List.mem_cons] at hx
    rcases hx with h | h | h | h | hx2
    · exact Or.inl (by simp [h])
    · exact Or.inl (by simp [h])
    · exact Or.inl (by simp [h])
    · exact Or.inr h
    · rcases ih x hx2 with h2 | h2
      · exact Or.inl (List.mem_cons_of_mem a (List.mem_cons_of_mem b (List.mem_cons_of_mem c h2)))
      · exact Or.inr h2

theorem vndSpec_no_minus (n : Int) : '-' ∉ (vndSpec n).data := by
  intro hc
  unfold vndSpec at hc
  rw [String.data_append] at hc
  rcases List.mem_append.mp hc with h1 | h2
  · have hm : (String.mk ((chunkRight (natDec (n * 1000).natAbs).data.reverse).reverse)).data
        = (chunkRight (natDec (n * 1000).natAbs).data.reverse).reverse := rfl
    rw [hm] at h1
    rcases chunkRight_subset _ '-' (List.mem_reverse.mp h1) with h3 | h3
    · have hd := natDec_data_digits (n * 1000).natAbs '-' (List.mem_reverse.mp h3)
      exact absurd hd (by decide)
    · exact absurd h3 (by decide)
  · have hg : (" ₫" : String).data = [' ', '₫'] := rfl
    rw [hg] at h2
    rcases List.mem_cons.mp h2 with h3 | h3
    · exact absurd h3 (by decide)
    · rcases List.mem_cons.mp h3 with h4 | h4
      · exact absurd h4 (by decide)
      · simp at h4

theorem foldl_select (ps : List GoldPrice) : ∀ acc,
    ps.foldl (fun acc p => if p.ty = trackedLabel then p else acc) acc =
      (ps.filter (fun p => p.ty == trackedLabel)).getLastD acc := by
  induction ps with
  | nil => intro acc; rfl
  | cons p ps ih =>
    intro acc
    rw [List.foldl_cons, ih, List.filter_cons]
    by_cases hp : p.ty = trackedLabel
    · rw [if_pos hp, if_pos (beq_iff_eq.mpr hp), List.getLastD_cons]
    · rw [if_neg hp, if_neg (fun hb => hp (beq_iff_eq.mp hb))]

theorem selectRing_eq (ps : List GoldPrice) :
    selectRing ps = (ps.filter (fun p => p.ty == trackedLabel)).getLastD zeroGold :=
  foldl_select ps zeroGold

theorem decode_encode (p : GoldPrice) : decodeGoldPrice (encodeGoldPrice p) = some p := by
  have h1 : decodeGoldPrice (encodeGoldPrice p) =
      match parseIntText (intDec p.UpdatedAt) with
      | some ts => some ⟨p.ty, p.Buy, p.Sell, p.Converted, ts⟩
      | none => none := rfl
  rw [h1, parseIntText_intDec]

theorem decodeSnapshot_encode (ps : List GoldPrice) :
    decodeSnapshot (encodeSnapshot ps) = some ps := by
  unfold decodeSnapshot encodeSnapshot
  induction ps with
  | nil => rfl
  | cons p ps ih =>
    simp only [List.map_cons, List.mapM_cons, decode_encode]
    have ih2 : List.mapM decodeGoldPrice (List.map encodeGoldPrice ps) = some ps := ih
    rw [ih2]
    rfl

theorem data_mk (l : List Char) : (String.mk l).data = l := rfl

theorem mem_trimSpace_sub {c : Char} {s : String} (h : c ∈ (trimSpace s).data) :
    c ∈ s.data := by
  unfold trimSpace at h
  rw [data_mk] at h
  have h1 := List.mem_reverse.mp h
  have h2 := (List.dropWhile_sublist isSpaceGo).subset h1
  have h3 := List.mem_reverse.mp h2
  exact (List.dropWhile_sublist isSpaceGo).subset h3

theorem convertToInt64_nonneg {s : String} {v : Int}
    (h : convertToInt64 s = some v) (hm : '-' ∉ s.data) : 0 ≤ v := by
  unfold convertToInt64 goParseInt64 at h
  rw [data_mk] at h
  rcases hl : s.data.filter (fun c => c ≠ ',') with _ | ⟨c, rest⟩
  · rw [hl] at h
    exact Option.noConfusion h
  · rw [hl] at h
    simp only [] at h
    have hc : c ≠ '-' := by
      intro he
      apply hm
      rw [← he]
      have hcf : c ∈ s.data.filter (fun c => c ≠ ',') := by
        rw [hl]
        exact List.mem_cons_self _ _
      exact List.mem_of_mem_filter hcf
    rcases hp : parseNatDigits (if c = '-' ∨ c = '+' then rest else c :: rest) with _ | m
    · rw [hp] at h
      exact Option.noConfusion h
    · rw [hp] at h
      simp only [] at h
      rw [if_neg hc] at h
      by_cases hr : ((m : Nat) : Int) ≤ 9223372036854775807
      · rw [if_pos hr] at h
        have := Option.some.inj h
        omega
      · rw [if_neg hr] at h
        exact Option.noConfusion h

theorem parseRow_some {now : Int} {r : Row} {p : GoldPrice}
    (h : parseRow now r = some p) :
    convertToInt64 (trimSpace (r.cells.getD 1 "")) = some p.Buy ∧
    convertToInt64 (trimSpace (r.cells.getD 2 "")) = some p.Sell ∧
    p.ty = trimSpace (r.cells.getD 0 "") ∧
    p.Converted = trimSpace (r.cells.getD 3 "") ∧ p.UpdatedAt = now := by
  unfold parseRow at h
  by_cases h1 : r.ths > 0
  · rw [if_pos h1] at h
    exact Option.noConfusion h
  · rw [if_neg h1] at h
    by_cases h2 : r.cells.length ≥ 3
    · rw [if_pos h2] at h
      rcases hb : convertToInt64 (trimSpace (r.cells.getD 1 "")) with _ | buy
      · rw [hb] at h
        exact Option.noConfusion h
      · rw [hb] at h
        rcases hs : convertToInt64 (trimSpace (r.cells.getD 2 "")) with _ | sell
        · rw [hs] at h
          exact Option.noConfusion h
        · rw [hs] at h
          have h3 := Option.some.inj h
          rw [← h3]
          exact ⟨rfl, rfl, rfl, rfl, rfl⟩
    · rw [if_neg h2] at h
      exact Option.noConfusion h

theorem parseRow_none_of_bad {now : Int} {r : Row}
    (hbad : r.cells.length < 3 ∨ convertToInt64 (trimSpace (r.cells.getD 1 "")) = none ∨
        convertToInt64 (trimSpace (r.cells.getD 2 "")) = none) :
    parseRow now r = none := by
  unfold parseRow
  by_cases h1 : r.ths > 0
  · rw [if_pos h1]
  · rw [if_neg h1]
    by_cases h2 : r.cells.length ≥ 3
    · rw [if_pos h2]
      rcases hbad with h | h | h
      · omega
      · rw [h]
      · rcases hb : convertToInt64 (trimSpace (r.cells.getD 1 "")) with _ | buy
        · rfl
        · rw [h]
    · rw [if_neg h2]

theorem getLastD_mem {α : Type} (l : List α) (a : α) (h : l ≠ []) : l.getLastD a ∈ l := by
  rw [List.getLastD_eq_getLast?, List.getLast?_eq_getLast l h]
  exact List.getLast_mem h

theorem saveLoop_attempted (insertRes : GoldPrice → Except String Unit) :
    ∀ (ps : List GoldPrice) (tr : SaveTrace),
      (ps.foldl
        (fun tr p =>
          { attempted := tr.attempted ++ [p],
            logged := tr.logged ++
              (match insertRes p with
               | .error e => ["Lỗi insert: " ++ e]
               | .ok _ => []) })
        tr).attempted = tr.attempted ++ ps := by
  intro ps
  induction ps with
  | nil => intro tr; simp
  | cons p ps ih =>
    intro tr
    rw [List.foldl_cons, ih]
    simp

theorem natAbs_thousand_bound {d : Int} (h : (d * 1000).natAbs < 9223372036854775808) :
    -9223372036854775808 ≤ d ∧ d < 9223372036854775808 := by
  rw [Int.natAbs_mul] at h
  have h1 : (1000 : Int).natAbs = 1000 := rfl
  rw [h1] at h
  omega

theorem neg_thousand_bound {d : Int} (h : (d * 1000).natAbs < 9223372036854775808) :
    ((-d) * 1000).natAbs < 9223372036854775808 := by
  rw [neg_mul, Int.natAbs_neg]
  exact h

theorem buyLine_cases {d : Int} (h : (d * 1000).natAbs < 9223372036854775808) :
    (d > 0 ∧ buyLine (wrap64 d) =
        "> Hôm nay giá mua tăng " ++ FormatVND d ++ "/chỉ so với trước đó\n") ∨
    (d < 0 ∧ buyLine (wrap64 d) =
        "> Hôm nay giá mua giảm " ++ FormatVND (-d) ++ "/chỉ so với trước đó\n") ∨
    (d = 0 ∧ buyLine (wrap64 d) = "> Hôm nay giá mua không đổi so với trước đó\n") := by
  obtain ⟨hl, hr⟩ := natAbs_thousand_bound h
  have hw : wrap64 d = d := wrap64_eq hl hr
  rw [hw]
  rcases lt_trichotomy d 0 with hlt | heq | hgt
  · right; left
    refine ⟨hlt, ?_⟩
    unfold buyLine
    rw [if_neg (by omega), if_pos hlt]
    rw [FormatVND_eq_vndSpec h, FormatVND_eq_vndSpec (neg_thousand_bound h)]
    unfold vndSpec
    rw [neg_mul, Int.natAbs_neg]
  · right; right
    refine ⟨heq, ?_⟩
    unfold buyLine
    rw [if_neg (by omega), if_neg (by omega)]
  · left
    refine ⟨hgt, ?_⟩
    unfold buyLine
    rw [if_pos hgt]

theorem sellLine_cases {d : Int} (h : (d * 1000).natAbs < 9223372036854775808) :
    (d > 0 ∧ sellLine (wrap64 d) =
        "> Hôm nay giá bán tăng " ++ FormatVND d ++ "/chỉ so với trước đó\n") ∨
    (d < 0 ∧ sellLine (wrap64 d) =
        "> Hôm nay giá bán giảm " ++ FormatVND (-d) ++ "/chỉ so với trước đó\n") ∨
    (d = 0 ∧ sellLine (wrap64 d) = "> Hôm nay giá bán không đổi so với trước đó\n") := by
  obtain ⟨hl, hr⟩ := natAbs_thousand_bound h
  have hw : wrap64 d = d := wrap64_eq hl hr
  rw [hw]
  rcases lt_trichotomy d 0 with hlt | heq | hgt
  · right; left
    refine ⟨hlt, ?_⟩
    unfold sellLine
    rw [if_neg (by omega), if_pos hlt]
    rw [FormatVND_eq_vndSpec h, FormatVND_eq_vndSpec (neg_thousand_bound h)]
    unfold vndSpec
    rw [neg_mul, Int.natAbs_neg]
  · right; right
    refine ⟨heq, ?_⟩
    unfold sellLine
    rw [if_neg (by omega), if_neg (by omega)]
  · left
    refine ⟨hgt, ?_⟩
    unfold sellLine
    rw [if_pos hgt]

/-! ### Claim theorems -/

/-- Claim C1.  The claim states that when the latest-snapshot file is
absent (e.g. on the first run), `loadLastPrices` returns an empty
snapshot and the cycle continues.  The code instead calls `log.Fatalf`
(main.go:200), which terminates the process: on a missing file the
outcome is `fatal` and is never `ok` — not even `ok []`. -/
theorem c1_missing_latest_is_fatal :
    loadLastPrices none = ReadOutcome.fatal "Không đọc được latest.json" ∧
      ∀ ps : List GoldPrice, loadLastPrices none ≠ ReadOutcome.ok ps := by
  refine ⟨rfl, ?_⟩
  intro ps h
  exact ReadOutcome.noConfusion h

/-- Claim C2 (counterexample).  The claim asserts every parsed record has
non-negative `buyPrice` and `sellPrice`; but `strconv.ParseInt` accepts a
leading minus sign, so the row `["X", "-5", "10", ""]` parses into a
record with `Buy = -5 < 0`. -/
theorem c2_counterexample :
    (parseRows 0 [⟨0, ["X", "-5", "10", ""]⟩]).map GoldPrice.Buy = [-5] ∧
      ¬ ∀ r ∈ parseRows 0 [⟨0, ["X", "-5", "10", ""]⟩], 0 ≤ r.Buy ∧ 0 ≤ r.Sell := by
  constructor
  · rfl
  · decide

/-- Claim C2 (amended).  Records produced by the parser carry exactly the
integers `convertToInt64` returns; these are non-negative whenever the
source price cells contain no minus character, and a row whose price cell
cannot be interpreted as an integer after stripping thousands separators
yields no record. -/
theorem c2_parse_price_invariant (now : Int) (rows : List Row)
    (hm : ∀ row ∈ rows, '-' ∉ (row.cells.getD 1 "").data ∧ '-' ∉ (row.cells.getD 2 "").data) :
    (∀ r ∈ parseRows now rows, 0 ≤ r.Buy ∧ 0 ≤ r.Sell) ∧
      ∀ row : Row, (convertToInt64 (trimSpace (row.cells.getD 1 "")) = none ∨
          convertToInt64 (trimSpace (row.cells.getD 2 "")) = none) →
        parseRow now row = none := by
  constructor
  · intro r hr
    obtain ⟨row, hrow, hp⟩ := List.mem_filterMap.mp hr
    obtain ⟨hb, hs, -, -, -⟩ := parseRow_some hp
    obtain ⟨hm1, hm2⟩ := hm row hrow
    refine ⟨convertToInt64_nonneg hb ?_, convertToInt64_nonneg hs ?_⟩
    · intro hmem; exact hm1 (mem_trimSpace_sub hmem)
    · intro hmem; exact hm2 (mem_trimSpace_sub hmem)
  · intro row hor
    exact parseRow_none_of_bad (Or.inr hor)

/-- Witness for C2 (amended), at a well-formed single-row table. -/
theorem c2_witness :
    (∀ row ∈ [Row.mk 0 ["Vàng nhẫn khâu 9999", " 8,490 ", "8,590", "x"]],
        '-' ∉ (row.cells.getD 1 "").data ∧ '-' ∉ (row.cells.getD 2 "").data) ∧
      ((∀ r ∈ parseRows 7 [Row.mk 0 ["Vàng nhẫn khâu 9999", " 8,490 ", "8,590", "x"]],
          0 ≤ r.Buy ∧ 0 ≤ r.Sell) ∧
        ∀ row : Row, (convertToInt64 (trimSpace (row.cells.getD 1 "")) = none ∨
            convertToInt64 (trimSpace (row.cells.getD 2 "")) = none) →
          parseRow 7 row = none) :=
  ⟨by decide, c2_parse_price_invariant 7 _ (by decide)⟩

/-- Claim C3 (counterexample).  The claim quantifies over every int64
input, but `n * 1000` is computed in int64 arithmetic: at
`n = 2^60 = 1152921504606846976` the product wraps to `-2^63`, whose
negation wraps back to `-2^63`, so the rendered string keeps its minus
character and differs from the grouped decimal rendering of `|n*1000|`. -/
theorem c3_counterexample :
    '-' ∈ (FormatVND 1152921504606846976).data ∧
      FormatVND 1152921504606846976 ≠ vndSpec 1152921504606846976 := by
  constructor
  · decide
  · decide

/-- Claim C3 (amended).  For every `n` whose scaled value `n * 1000` fits
in int64, `FormatVND n` is the decimal rendering of `|n * 1000|` grouped
by 3 digits from the least-significant digit followed by the currency
glyph, and contains no minus character. -/
theorem c3_format_groups_absolute (n : Int)
    (h : (n * 1000).natAbs < 9223372036854775808) :
    FormatVND n = vndSpec n ∧ '-' ∉ (FormatVND n).data := by
  refine ⟨FormatVND_eq_vndSpec h, ?_⟩
  rw [FormatVND_eq_vndSpec h]
  exact vndSpec_no_minus n

/-- Witness for C3 (amended) at the spec's example input 5000, checking
also the concrete rendering "5.000.000 ₫". -/
theorem c3_witness :
    (((5000 : Int) * 1000).natAbs < 9223372036854775808 ∧
        (FormatVND 5000 = vndSpec 5000 ∧ '-' ∉ (FormatVND 5000).data)) ∧
      FormatVND 5000 = "5.000.000 ₫" :=
  ⟨⟨by decide, c3_format_groups_absolute 5000 (by decide)⟩, by decide⟩

/-- Claim C4.  For snapshots whose tracked deltas do not overflow int64
when scaled, the message splits as `pre ++ bl ++ sl` where the buy line
`bl` is, exclusively by the sign of
`buyDelta = current.Buy - previous.Buy`: the "increased" line carrying
`FormatVND buyDelta` when positive, the "decreased" line carrying the
formatted magnitude when negative, and the "unchanged" line when zero —
and independently likewise for the sell line `sl`. -/
theorem c4_delta_trichotomy (dateStr : String) (prices lastPrices : List GoldPrice)
    (hb : (((selectRing prices).Buy - (selectRing lastPrices).Buy) * 1000).natAbs <
        9223372036854775808)
    (hs : (((selectRing prices).Sell - (selectRing lastPrices).Sell) * 1000).natAbs <
        9223372036854775808) :
    ∃ pre bl sl, formatMessage dateStr prices lastPrices = pre ++ bl ++ sl ∧
      (((selectRing prices).Buy - (selectRing lastPrices).Buy > 0 ∧
          bl = "> Hôm nay giá mua tăng " ++
            FormatVND ((selectRing prices).Buy - (selectRing lastPrices).Buy) ++
            "/chỉ so với trước đó\n") ∨
        ((selectRing prices).Buy - (selectRing lastPrices).Buy < 0 ∧
          bl = "> Hôm nay giá mua giảm " ++
            FormatVND ((selectRing lastPrices).Buy - (selectRing prices).Buy) ++
            "/chỉ so với trước đó\n") ∨
        ((selectRing prices).Buy - (selectRing lastPrices).Buy = 0 ∧
          bl = "> Hôm nay giá mua không đổi so với trước đó\n")) ∧
      (((selectRing prices).Sell - (selectRing lastPrices).Sell > 0 ∧
          sl = "> Hôm nay giá bán tăng " ++
            FormatVND ((selectRing prices).Sell - (selectRing lastPrices).Sell) ++
            "/chỉ so với trước đó\n") ∨
        ((selectRing prices).Sell - (selectRing lastPrices).Sell < 0 ∧
          sl = "> Hôm nay giá bán giảm " ++
            FormatVND ((selectRing lastPrices).Sell - (selectRing prices).Sell) ++
            "/chỉ so với trước đó\n") ∨
        ((selectRing prices).Sell - (selectRing lastPrices).Sell = 0 ∧
          sl = "> Hôm nay giá bán không đổi so với trước đó\n")) := by
  refine ⟨"Giá vàng hôm nay - " ++ dateStr ++ " 💰\n" ++
      ("• " ++ (selectRing prices).ty ++ ": Mua " ++ FormatVND (selectRing prices).Buy ++
        "/chỉ - Bán " ++ FormatVND (selectRing prices).Sell ++ "/chỉ\n"),
    buyLine (wrap64 ((selectRing prices).Buy - (selectRing lastPrices).Buy)),
    sellLine (wrap64 ((selectRing prices).Sell - (selectRing lastPrices).Sell)),
    ?_, ?_, ?_⟩
  · simp only [formatMessage]
  · rcases buyLine_cases hb with ⟨h1, h2⟩ | ⟨h1, h2⟩ | ⟨h1, h2⟩
    · exact Or.inl ⟨h1, h2⟩
    · rw [neg_sub] at h2
      exact Or.inr (Or.inl ⟨h1, h2⟩)
    · exact Or.inr (Or.inr ⟨h1, h2⟩)
  · rcases sellLine_cases hs with ⟨h1, h2⟩ | ⟨h1, h2⟩ | ⟨h1, h2⟩
    · exact Or.inl ⟨h1, h2⟩
    · rw [neg_sub] at h2
      exact Or.inr (Or.inl ⟨h1, h2⟩)
    · exact Or.inr (Or.inr ⟨h1, h2⟩)

/-- Witness for C4 at the spec's example: previous tracked buy 100,
current 120, sell unchanged at 102. -/
theorem c4_witness :
    ((((selectRing [GoldPrice.mk "Vàng nhẫn khâu 9999" 120 102 "" 0]).Buy -
          (selectRing [GoldPrice.mk "Vàng nhẫn khâu 9999" 100 102 "" 0]).Buy) * 1000).natAbs <
        9223372036854775808) ∧
      ((((selectRing [GoldPrice.mk "Vàng nhẫn khâu 9999" 120 102 "" 0]).Sell -
          (selectRing [GoldPrice.mk "Vàng nhẫn khâu 9999" 100 102 "" 0]).Sell) * 1000).natAbs <
        9223372036854775808) ∧
      ∃ pre bl sl,
        formatMessage "d" [GoldPrice.mk "Vàng nhẫn khâu 9999" 120 102 "" 0]
            [GoldPrice.mk "Vàng nhẫn khâu 9999" 100 102 "" 0] = pre ++ bl ++ sl ∧
        (((selectRing [GoldPrice.mk "Vàng nhẫn khâu 9999" 120 102 "" 0]).Buy -
            (selectRing [GoldPrice.mk "Vàng nhẫn khâu 9999" 100 102 "" 0]).Buy > 0 ∧
            bl = "> Hôm nay giá mua tăng " ++
              FormatVND ((selectRing [GoldPrice.mk "Vàng nhẫn khâu 9999" 120 102 "" 0]).Buy -
                (selectRing [GoldPrice.mk "Vàng nhẫn khâu 9999" 100 102 "" 0]).Buy) ++
              "/chỉ so với trước đó\n") ∨
          ((selectRing [GoldPrice.mk "Vàng nhẫn khâu 9999" 120 102 "" 0]).Buy -
            (selectRing [GoldPrice.mk "Vàng nhẫn khâu 9999" 100 102 "" 0]).Buy < 0 ∧
            bl = "> Hôm nay giá mua giảm " ++
              FormatVND ((selectRing [GoldPrice.mk "Vàng nhẫn khâu 9999" 100 102 "" 0]).Buy -
                (selectRing [GoldPrice.mk "Vàng nhẫn khâu 9999" 120 102 "" 0]).Buy) ++
              "/chỉ so với trước đó\n") ∨
          ((selectRing [GoldPrice.mk "Vàng nhẫn khâu 9999" 120 102 "" 0]).Buy -
            (selectRing [GoldPrice.mk "Vàng nhẫn khâu 9999" 100 102 "" 0]).Buy = 0 ∧
            bl = "> Hôm nay giá mua không đổi so với trước đó\n")) ∧
        (((selectRing [GoldPrice.mk "Vàng nhẫn khâu 9999" 120 102 "" 0]).Sell -
            (selectRing [GoldPrice.mk "Vàng nhẫn khâu 9999" 100 102 "" 0]).Sell > 0 ∧
            sl = "> Hôm nay giá bán tăng " ++
              FormatVND ((selectRing [GoldPrice.mk "Vàng nhẫn khâu 9999" 120 102 "" 0]).Sell -
                (selectRing [GoldPrice.mk "Vàng nhẫn khâu 9999" 100 102 "" 0]).Sell) ++
              "/chỉ so với trước đó\n") ∨
          ((selectRing [GoldPrice.mk "Vàng nhẫn khâu 9999" 120 102 "" 0]).Sell -
            (selectRing [GoldPrice.mk "Vàng nhẫn khâu 9999" 100 102 "" 0]).Sell < 0 ∧
            sl = "> Hôm nay giá bán giảm " ++
              FormatVND ((selectRing [GoldPrice.mk "Vàng nhẫn khâu 9999" 100 102 "" 0]).Sell -
                (selectRing [GoldPrice.mk "Vàng nhẫn khâu 9999" 120 102 "" 0]).Sell) ++
              "/chỉ so với trước đó\n") ∨
          ((selectRing [GoldPrice.mk "Vàng nhẫn khâu 9999" 120 102 "" 0]).Sell -
            (selectRing [GoldPrice.mk "Vàng nhẫn khâu 9999" 100 102 "" 0]).Sell = 0 ∧
            sl = "> Hôm nay giá bán không đổi so với trước đó\n")) :=
  ⟨by decide, by decide, c4_delta_trichotomy "d" _ _ (by decide) (by decide)⟩

/-- Claim C5.  The selection loop of `formatMessage` keeps only records
whose `Type` exactly equals the tracked label "Vàng nhẫn khâu 9999": if
no record matches, the selected record is the zero value (buy and sell
both 0, the comparison baseline); if some record matches, the selected
record is one of the snapshot's records and carries the tracked label. -/
theorem c5_tracked_selection (prices : List GoldPrice) :
    ((∀ p ∈ prices, p.ty ≠ trackedLabel) →
        selectRing prices = zeroGold ∧ zeroGold.Buy = 0 ∧ zeroGold.Sell = 0) ∧
      ((∃ p ∈ prices, p.ty = trackedLabel) →
        selectRing prices ∈ prices ∧ (selectRing prices).ty = trackedLabel) := by
  constructor
  · intro h
    refine ⟨?_, rfl, rfl⟩
    rw [selectRing_eq]
    have hnil : prices.filter (fun p => p.ty == trackedLabel) = [] := by
      rw [List.filter_eq_nil_iff]
      intro p hp
      simp only [beq_iff_eq]
      exact h p hp
    rw [hnil]
    rfl
  · rintro ⟨p, hp, hlab⟩
    have hne : prices.filter (fun p => p.ty == trackedLabel) ≠ [] := by
      intro h0
      rw [List.filter_eq_nil_iff] at h0
      exact absurd (beq_iff_eq.mpr hlab) (h0 p hp)
    rw [selectRing_eq]
    have hmem := getLastD_mem _ zeroGold hne
    obtain ⟨hin, hpred⟩ := List.mem_filter.mp hmem
    exact ⟨hin, beq_iff_eq.mp hpred⟩

/-- Witness for C5: both the absent case (empty snapshot → zero baseline)
and the present case at a one-record snapshot. -/
theorem c5_witness :
    (selectRing [] = zeroGold ∧ zeroGold.Buy = 0 ∧ zeroGold.Sell = 0) ∧
      (selectRing [GoldPrice.mk "Vàng nhẫn khâu 9999" 120 102 "" 0] ∈
          [GoldPrice.mk "Vàng nhẫn khâu 9999" 120 102 "" 0] ∧
        (selectRing [GoldPrice.mk "Vàng nhẫn khâu 9999" 120 102 "" 0]).ty = trackedLabel) :=
  ⟨(c5_tracked_selection []).1 (by decide),
    (c5_tracked_selection _).2 ⟨_, List.mem_cons_self _ _, rfl⟩⟩

/-- Claim C6.  A data row (no `th` cells) with at least 3 cells whose
second and third cells convert to integers (trim, strip commas, parse)
yields exactly the record with those integer prices, the trimmed first
cell as instrument name, and the trimmed fourth cell text (empty when the
row has only 3 cells) as converted note, stamped with the capture time. -/
theorem c6_wellformed_row (now : Int) (row : Row) (b s : Int)
    (hth : row.ths = 0) (hlen : row.cells.length ≥ 3)
    (hb : convertToInt64 (trimSpace (row.cells.getD 1 "")) = some b)
    (hs : convertToInt64 (trimSpace (row.cells.getD 2 "")) = some s) :
    parseRow now row =
      some ⟨trimSpace (row.cells.getD 0 ""), b, s, trimSpace (row.cells.getD 3 ""), now⟩ := by
  unfold parseRow
  rw [if_neg (by omega), if_pos hlen, hb, hs]

/-- Witness for C6 at a concrete row with thousands separators and
surrounding whitespace. -/
theorem c6_witness :
    (Row.mk 0 [" Vàng nhẫn khâu 9999 ", " 8,490 ", "8,590", " ghi chú "]).ths = 0 ∧
      (Row.mk 0 [" Vàng nhẫn khâu 9999 ", " 8,490 ", "8,590", " ghi chú "]).cells.length ≥ 3 ∧
      convertToInt64 (trimSpace
        ((Row.mk 0 [" Vàng nhẫn khâu 9999 ", " 8,490 ", "8,590", " ghi chú "]).cells.getD 1 "")) =
        some 8490 ∧
      convertToInt64 (trimSpace
        ((Row.mk 0 [" Vàng nhẫn khâu 9999 ", " 8,490 ", "8,590", " ghi chú "]).cells.getD 2 "")) =
        some 8590 ∧
      parseRow 7 (Row.mk 0 [" Vàng nhẫn khâu 9999 ", " 8,490 ", "8,590", " ghi chú "]) =
        some ⟨trimSpace
            ((Row.mk 0 [" Vàng nhẫn khâu 9999 ", " 8,490 ", "8,590", " ghi chú "]).cells.getD 0 ""),
          8490, 8590,
          trimSpace
            ((Row.mk 0 [" Vàng nhẫn khâu 9999 ", " 8,490 ", "8,590", " ghi chú "]).cells.getD 3 ""),
          7⟩ :=
  ⟨rfl, by decide, by decide, by decide,
    c6_wellformed_row 7 _ 8490 8590 rfl (by decide) (by decide) (by decide)⟩

/-- Claim C7.  A row with fewer than 3 data cells, or whose price cells
fail integer conversion, contributes no record, and deleting it from the
row sequence leaves the parse of all other rows unchanged: row-level
failure never aborts parsing of subsequent rows. -/
theorem c7_bad_row_skipped (now : Int) (rows1 rows2 : List Row) (bad : Row)
    (hbad : bad.cells.length < 3 ∨ convertToInt64 (trimSpace (bad.cells.getD 1 "")) = none ∨
        convertToInt64 (trimSpace (bad.cells.getD 2 "")) = none) :
    parseRows now (rows1 ++ bad :: rows2) = parseRows now (rows1 ++ rows2) := by
  have hnone : parseRow now bad = none := parseRow_none_of_bad hbad
  unfold parseRows
  rw [List.filterMap_append, List.filterMap_append, List.filterMap_cons, hnone]

/-- Witness for C7: a short row between two good rows is dropped while
both neighbours still parse. -/
theorem c7_witness :
    ((Row.mk 0 ["hdr", "x"]).cells.length < 3 ∨
        convertToInt64 (trimSpace ((Row.mk 0 ["hdr", "x"]).cells.getD 1 "")) = none ∨
        convertToInt64 (trimSpace ((Row.mk 0 ["hdr", "x"]).cells.getD 2 "")) = none) ∧
      parseRows 3 ([Row.mk 0 ["a", "1", "2", ""]] ++ Row.mk 0 ["hdr", "x"] ::
          [Row.mk 0 ["b", "3", "4", ""]]) =
        parseRows 3 ([Row.mk 0 ["a", "1", "2", ""]] ++ [Row.mk 0 ["b", "3", "4", ""]]) :=
  ⟨Or.inl (by decide), c7_bad_row_skipped 3 _ _ _ (Or.inl (by decide))⟩

/-- Claim C8.  Writing a snapshot to the latest-store (`json.MarshalIndent`
to `latest.json`) and reading it back through `loadLastPrices` yields the
same sequence of records — same order, all five fields equal. -/
theorem c8_latest_roundtrip (ps : List GoldPrice) :
    loadLastPrices (some (encodeSnapshot ps)) = ReadOutcome.ok ps := by
  have h1 : loadLastPrices (some (encodeSnapshot ps)) =
      ReadOutcome.ok ((decodeSnapshot (encodeSnapshot ps)).getD []) := rfl
  rw [h1, decodeSnapshot_encode]
  rfl

/-- Claim C9.  Once open and table creation succeed, `saveToSQLite`
attempts an INSERT for every record in order — individual failures are
only logged — and the function returns success regardless of how many
inserts failed. -/
theorem c9_insert_failures_tolerated (openRes createRes : Except String Unit)
    (insertRes : GoldPrice → Except String Unit) (prices : List GoldPrice)
    (hopen : openRes = .ok ()) (hcreate : createRes = .ok ()) :
    ∃ tr : SaveTrace, saveToSQLite openRes createRes insertRes prices = .ok tr ∧
      tr.attempted = prices := by
  subst hopen hcreate
  refine ⟨_, rfl, ?_⟩
  rw [saveLoop_attempted]
  rfl

/-- Witness for C9: every insert fails, yet both records are attempted
and the call still succeeds. -/
theorem c9_witness :
    ∃ tr : SaveTrace,
      saveToSQLite (.ok ()) (.ok ()) (fun _ => .error "disk full")
        [GoldPrice.mk "a" 1 2 "" 0, GoldPrice.mk "b" 3 4 "" 0] = .ok tr ∧
      tr.attempted = [GoldPrice.mk "a" 1 2 "" 0, GoldPrice.mk "b" 3 4 "" 0] :=
  c9_insert_failures_tolerated _ _ _ _ rfl rfl

/-- Claim C10.  When several records carry the tracked label, the message
depends only on the last matching record of each snapshot: replacing each
snapshot by the singleton holding its last matching record leaves
`formatMessage` unchanged. -/
theorem c10_last_match_is_focal (dateStr : String) (prices lastPrices : List GoldPrice)
    (h1 : 1 < (prices.filter (fun p => p.ty == trackedLabel)).length)
    (h2 : 1 < (lastPrices.filter (fun p => p.ty == trackedLabel)).length) :
    formatMessage dateStr prices lastPrices =
      formatMessage dateStr
        [(prices.filter (fun p => p.ty == trackedLabel)).getLastD zeroGold]
        [(lastPrices.filter (fun p => p.ty == trackedLabel)).getLastD zeroGold] := by
  have hsel : ∀ x : GoldPrice,
      selectRing [x] = if x.ty = trackedLabel then x else zeroGold := fun x => rfl
  have key : ∀ ps : List GoldPrice, ps.filter (fun p => p.ty == trackedLabel) ≠ [] →
      selectRing [(ps.filter (fun p => p.ty == trackedLabel)).getLastD zeroGold] =
        selectRing ps := by
    intro ps hne
    have hmem := getLastD_mem _ zeroGold hne
    obtain ⟨-, hpred⟩ := List.mem_filter.mp hmem
    rw [hsel, if_pos (beq_iff_eq.mp hpred), selectRing_eq ps]
  have hne1 : prices.filter (fun p => p.ty == trackedLabel) ≠ [] := by
    intro h0; rw [h0] at h1; simp at h1
  have hne2 : lastPrices.filter (fun p => p.ty == trackedLabel) ≠ [] := by
    intro h0; rw [h0] at h2; simp at h2
  simp only [formatMessage]
  rw [key prices hne1, key lastPrices hne2]

/-- Witness for C10: two tracked records per snapshot; the last ones
(buy 120 vs 100) drive the message. -/
theorem c10_witness :
    1 < (([GoldPrice.mk "Vàng nhẫn khâu 9999" 90 80 "" 0,
          GoldPrice.mk "Vàng nhẫn khâu 9999" 120 102 "" 0]).filter
        (fun p => p.ty == trackedLabel)).length ∧
      1 < (([GoldPrice.mk "Vàng nhẫn khâu 9999" 70 60 "" 0,
          GoldPrice.mk "Vàng nhẫn khâu 9999" 100 102 "" 0]).filter
        (fun p => p.ty == trackedLabel)).length ∧
      formatMessage "d"
          [GoldPrice.mk "Vàng nhẫn khâu 9999" 90 80 "" 0,
            GoldPrice.mk "Vàng nhẫn khâu 9999" 120 102 "" 0]
          [GoldPrice.mk "Vàng nhẫn khâu 9999" 70 60 "" 0,
            GoldPrice.mk "Vàng nhẫn khâu 9999" 100 102 "" 0] =
        formatMessage "d"
          [(([GoldPrice.mk "Vàng nhẫn khâu 9999" 90 80 "" 0,
              GoldPrice.mk "Vàng nhẫn khâu 9999" 120 102 "" 0]).filter
            (fun p => p.ty == trackedLabel)).getLastD zeroGold]
          [(([GoldPrice.mk "Vàng nhẫn khâu 9999" 70 60 "" 0,
              GoldPrice.mk "Vàng nhẫn khâu 9999" 100 102 "" 0]).filter
            (fun p => p.ty == trackedLabel)).getLastD zeroGold] :=
  ⟨by decide, by decide, c10_last_match_is_focal "d" _ _ (by decide) (by decide)⟩
